import Mathlib

/-!
Verification of the measurement-orchestration logic of `betterspeedtest.py`.

The script is embedded shallowly:

* Python numbers are modelled exactly: the CLI integers (`--length`,
  `--warmup`, `--num`, `--proto`) as `ℤ`, the float `--interval` and all
  round-trip times and throughputs as `ℚ` (the script's arithmetic on these
  values is exact on the inputs of interest, so `ℚ` is the idealisation the
  spec itself works in, "within floating tolerance").
* `asyncio` effects are modelled by recording, in a `Trace`, which `netperf`
  subprocesses are launched, which `async_ping` calls are issued, which report
  lines are printed, and which Python exception (if any) aborts the run.
* The external collaborators (`netperf` itself, `icmplib.async_ping`,
  `numpy.percentile`) are modelled at their interface boundary: the
  environment `Env` supplies each subprocess's standard output and exit
  status and the ping result object; `numpy.percentile` is modelled by its
  documented default linear-interpolation rule, raising on an empty input.
-/

/-- Line 46 of betterspeedtest.py,
`count = int(ceil(args.length / args.interval))`: the number of ping
samples requested. -/
def sampleCount (length interval : ℚ) : ℤ :=
  ⌈length / interval⌉

/-- Line 47 of betterspeedtest.py, `length = int(ceil(count * args.interval))`:
the congruent test duration in whole seconds. -/
def congruentDuration (length interval : ℚ) : ℤ :=
  ⌈(sampleCount length interval : ℚ) * interval⌉

/-- Value of a list of decimal digit characters. -/
def digitsVal (ds : List Char) : ℕ :=
  ds.foldl (fun a c => 10 * a + (c.toNat - 48)) 0

/-- Python `str.strip()` on the character list of a string: whitespace
removed from both ends. (`float()` itself also ignores surrounding
whitespace, so one strip models `float(stdout.strip())` exactly.) -/
def pyStrip (cs : List Char) : List Char :=
  ((cs.dropWhile Char.isWhitespace).reverse.dropWhile Char.isWhitespace).reverse

/-- Unsigned part of Python `float(...)` literal parsing: digits, an optional
point with fractional digits, and an optional exponent. At least one mantissa
digit is required and no trailing characters are allowed, exactly as Python
rejects `""`, `"."`, `"abc"` or `"1.2.3"`. (Python additionally accepts
`inf`/`nan`, which have no `ℚ` value, and underscore digit separators;
neither occurs in `netperf` output.) -/
def parseDecimal (cs : List Char) : Option ℚ :=
  let p1 := cs.span Char.isDigit
  let ip := p1.1
  let afterInt := p1.2
  let hasDot := afterInt.head? = some '.'
  let p2 := (if hasDot then afterInt.tail else afterInt).span Char.isDigit
  let fp := if hasDot then p2.1 else []
  let afterFrac := if hasDot then p2.2 else afterInt
  if ip.isEmpty && fp.isEmpty then none
  else
    let mant : ℚ := (digitsVal ip : ℚ) + (digitsVal fp : ℚ) / (10 : ℚ) ^ fp.length
    match afterFrac with
    | [] => some mant
    | e :: rest =>
      if e = 'e' ∨ e = 'E' then
        let sgnAndDigits : ℤ × List Char :=
          match rest with
          | '+' :: t => (1, t)
          | '-' :: t => (-1, t)
          | t => (1, t)
        let p3 := sgnAndDigits.2.span Char.isDigit
        if p3.1.isEmpty || !p3.2.isEmpty then none
        else some (mant * (10 : ℚ) ^ (sgnAndDigits.1 * (digitsVal p3.1 : ℤ)))
      else none

/-- Python `float(s.strip())` on a finite decimal literal: strip
whitespace, then an optional sign, then `parseDecimal`. Returns `none`
where Python raises `ValueError`. -/
def parsePyFloat (s : String) : Option ℚ :=
  match pyStrip s.toList with
  | '+' :: rest => parseDecimal rest
  | '-' :: rest => (parseDecimal rest).map Neg.neg
  | cs => parseDecimal cs

/-- Model of `get_netperf` (betterspeedtest.py lines 23-25): reads the subprocess's
standard output and returns `float(stdout.strip())`. The exit status of the
process is never examined by the script, so it is an ignored argument here.
`none` models the `ValueError` raised on unparseable output. -/
def get_netperf (stdout : String) (_exitStatus : ℤ) : Option ℚ :=
  parsePyFloat stdout

/-- Insert into a sorted list, keeping it sorted. -/
def insertSorted (x : ℚ) : List ℚ → List ℚ
  | [] => [x]
  | y :: ys => if x ≤ y then x :: y :: ys else y :: insertSorted x ys

/-- Python `sorted(...)` on rationals (betterspeedtest.py line 29), as an
insertion sort. -/
def sortRtts (l : List ℚ) : List ℚ :=
  l.foldr insertSorted []

/-- Model of `numpy.percentile(a, p)` with the default linear interpolation:
rank `p/100 * (n-1)`, value interpolated between the floor and ceiling
ranks of the sorted data. `none` models the `IndexError` numpy raises on an
empty input array. The argument is already sorted by the caller. -/
def percentile (sorted : List ℚ) (p : ℚ) : Option ℚ :=
  match sorted with
  | [] => none
  | _ :: _ =>
    let n := sorted.length
    let rank := p / 100 * ((n : ℚ) - 1)
    let lo := (⌊rank⌋).toNat
    let hi := (⌈rank⌉).toNat
    let frac := rank - (⌊rank⌋ : ℚ)
    some (sorted.getD lo 0 + frac * (sorted.getD hi 0 - sorted.getD lo 0))

/-- The fields of the `icmplib` ping result object that `print_result`
reads: `rtts`, `packets_sent`, `packet_loss`, `min_rtt`, `avg_rtt`,
`max_rtt`, `jitter`. -/
structure PingResult where
  rtts : List ℚ
  packets_sent : ℤ
  packet_loss : ℚ
  min_rtt : ℚ
  avg_rtt : ℚ
  max_rtt : ℚ
  jitter : ℚ
  deriving DecidableEq

/-- The CLI arguments of betterspeedtest.py (lines 78-89), with the types
argparse gives them: `--length`, `--warmup`, `--num`, `--proto` are `int`,
`--interval` is `float`, `--idle` a flag. -/
structure Args where
  proto : ℤ
  host : String
  ping : String
  direction : String
  length : ℤ
  interval : ℚ
  warmup : ℤ
  num : ℤ
  idle : Bool
  deriving DecidableEq

/-- One line of the statistics report printed by `print_result`
(betterspeedtest.py lines 31-41), with the numeric payload each line
formats. Console formatting (field widths, decimal places) is out of
scope. -/
inductive Line where
  /-- Printed as `'{dir_msg:>9} {speed:.2f} Mbps'` -/
  | speed (dirMsg : String) (mbps : ℚ)
  /-- Printed as `'Latency: (in msec, ... pings, ...% packet loss)'` -/
  | latencyHeader (packetsSent : ℤ) (lossPct : ℚ)
  | minRtt (v : ℚ)
  | pct10 (v : ℚ)
  | median (v : ℚ)
  | avgRtt (v : ℚ)
  | pct90 (v : ℚ)
  | maxRtt (v : ℚ)
  | jitter (v : ℚ)
  deriving DecidableEq

/-- The Python exceptions that can abort a run of the script:
`ZeroDivisionError` from `args.length / args.interval` at line 46,
`ValueError` from `float()` in `get_netperf` (carrying the index of the
first failing session), and `IndexError` from `numpy.percentile` on an
empty sample list. -/
inductive RunError where
  | zeroDivisionError
  | valueError (sessionIdx : ℕ)
  | indexError
  deriving DecidableEq

/-- Model of `print_result` (betterspeedtest.py lines 28-41): the list of report
lines printed, in order, paired with the exception (if any) that aborts the
printing. The `speed` line is printed only when `if speed:` is truthy in
Python, i.e. when `speed` is neither `None` nor `0.0`. On an empty sample
list the header and Min lines are printed first, then the first
`numpy.percentile` call raises. -/
def print_result (args : Args) (result : PingResult) (speed : Option ℚ) :
    List Line × Option RunError :=
  let sorted_rtts := sortRtts result.rtts
  let speedLines : List Line :=
    match speed with
    | some s =>
      if s = 0 then []
      else [Line.speed (if args.direction = "up" then "Upload" else "Download") s]
    | none => []
  let hdr : List Line :=
    [Line.latencyHeader result.packets_sent (result.packet_loss * 100),
     Line.minRtt result.min_rtt]
  match percentile sorted_rtts 10, percentile sorted_rtts 50, percentile sorted_rtts 90 with
  | some p10, some p50, some p90 =>
    (speedLines ++ hdr ++
      [Line.pct10 p10, Line.median p50, Line.avgRtt result.avg_rtt,
       Line.pct90 p90, Line.maxRtt result.max_rtt, Line.jitter result.jitter],
     none)
  | _, _, _ => (speedLines ++ hdr, some RunError.indexError)

/-- A `netperf` subprocess invocation as built by `run_netperf`
(betterspeedtest.py lines 15-20): `netperf -{proto} -H {host} -t {direction}
-l {length} -v 0 -P 0` (the `-v 0 -P 0` flags are constant). -/
structure NetperfCmd where
  proto : ℤ
  host : String
  direction : String
  length : ℤ
  deriving DecidableEq

/-- An `async_ping` invocation as issued by `main` (lines 51 and 67):
`async_ping(args.ping, count=count, interval=args.interval,
privileged=False)`. -/
structure PingCall where
  host : String
  count : ℤ
  interval : ℚ
  privileged : Bool
  deriving DecidableEq

/-- The external world of one run: the result object the ping task yields,
and each launched netperf subprocess's standard output and exit status
(indexed by launch order). -/
structure Env where
  pingResult : PingResult
  sessionStdout : ℕ → String
  sessionExit : ℕ → ℤ

/-- Everything observable about one run of `main`: the subprocesses
launched, the ping calls issued, the aggregate speed passed to
`print_result` (line 71), the report lines printed, and the exception (if
any) that terminates the run. -/
structure Trace where
  netperfs : List NetperfCmd
  pingCalls : List PingCall
  speed : Option ℚ
  lines : List Line
  error : Option RunError
  deriving DecidableEq

/-- Index of the first `none` in a list of parse results: the first
`get_netperf` coroutine whose `float()` raises, which is the exception
`asyncio.gather` propagates. -/
def firstNone : List (Option ℚ) → Option ℕ
  | [] => none
  | none :: _ => some 0
  | some _ :: rest => (firstNone rest).map (· + 1)

/-- Model of `main` (betterspeedtest.py lines 44-74) as a trace function
(named `mainRun` because `main` is a reserved entry-point name in Lean).
Control flow, in source order: compute `direction`, `count` and the
congruent `length` (dividing by a zero interval raises before anything is
launched); in idle mode issue one ping call and print the report with no
speed; in load mode launch `args.num` netperf subprocesses each with
duration `length + args.warmup + 2`, issue the ping call, gather the
parsed session outputs (any `ValueError` aborts the run before the report
is printed), sum them, and print the report with the summed speed. -/
def mainRun (args : Args) (env : Env) : Trace :=
  let direction := if args.direction = "up" then "TCP_STREAM" else "TCP_MAERTS"
  if args.interval = 0 then
    { netperfs := [], pingCalls := [], speed := none, lines := [],
      error := some RunError.zeroDivisionError }
  else
    let count : ℤ := sampleCount (args.length : ℚ) args.interval
    let clength : ℤ := congruentDuration (args.length : ℚ) args.interval
    if args.idle then
      let pr := print_result args env.pingResult none
      { netperfs := [], pingCalls := [⟨args.ping, count, args.interval, false⟩],
        speed := none, lines := pr.1, error := pr.2 }
    else
      let n := args.num.toNat
      let netperfs := (List.range n).map fun _ =>
        NetperfCmd.mk args.proto args.host direction (clength + args.warmup + 2)
      let pings := [PingCall.mk args.ping count args.interval false]
      let results := (List.range n).map fun i =>
        get_netperf (env.sessionStdout i) (env.sessionExit i)
      match firstNone results with
      | some i =>
        { netperfs := netperfs, pingCalls := pings, speed := none,
          lines := [], error := some (RunError.valueError i) }
      | none =>
        let speed := (results.filterMap id).sum
        let pr := print_result args env.pingResult (some speed)
        { netperfs := netperfs, pingCalls := pings, speed := some speed,
          lines := pr.1, error := pr.2 }

/-- The expected direction argument of the netperf invocations. -/
def netperfDirection (args : Args) : String :=
  if args.direction = "up" then "TCP_STREAM" else "TCP_MAERTS"

/-! ## Concrete fixtures -/

/-- A ping result with three samples, as the probe yields under normal
conditions. -/
def pingFix : PingResult := ⟨[20, 25, 30], 300, 0, 20, 25, 30, 2⟩

/-- A ping result whose sample list is empty. -/
def emptyPing : PingResult := ⟨[], 300, 1, 0, 0, 0, 0⟩

/-- An environment where every session prints `5.0` and exits 0. -/
def envFix : Env := ⟨pingFix, fun _ => "5.0", fun _ => 0⟩

/-- A load-mode parameter set: upload, 3 sessions, defaults otherwise. -/
def argsLoadFix : Args := ⟨4, "h", "p", "up", 30, 1 / 10, 10, 3, false⟩

/-- A parameter set with a negative probe interval. -/
def argsNegInterval : Args := ⟨4, "h", "p", "up", 30, -1, 10, 1, false⟩

/-- A load-mode parameter set with zero sessions. -/
def argsZeroSessions : Args := ⟨4, "h", "p", "down", 30, 1 / 10, 10, 0, false⟩

/-- A parameter set with a zero probe interval. -/
def argsZeroInterval : Args := ⟨4, "h", "p", "up", 30, 0, 10, 5, false⟩

/-- An environment whose single subprocess prints a clean number but exits
with status 1. -/
def envExitOne : Env := ⟨pingFix, fun _ => "10.0", fun _ => 1⟩

/-- An environment whose second session prints non-numeric output. -/
def envBadOutput : Env := ⟨pingFix, fun i => if i = 1 then "abc" else "10.0", fun _ => 0⟩

/-- An idle-mode parameter set: `ping = 1.1.1.1`, `length = 5`,
`interval = 1`. -/
def argsIdleFix : Args := ⟨4, "h", "1.1.1.1", "up", 5, 1, 10, 5, true⟩

/-- An environment whose three sessions report 10.0, 12.5 and 9.8 Mbps. -/
def envSynth : Env :=
  ⟨pingFix, fun i => if i = 0 then "10.0" else if i = 1 then "12.5" else "9.8",
   fun _ => 0⟩

/-- An environment where every session prints `0.0`. -/
def envZeroSpeed : Env := ⟨pingFix, fun _ => "0.0", fun _ => 0⟩

/-- A parameter set with the invalid direction flag `sideways`. -/
def argsSideways : Args := ⟨4, "h", "p", "sideways", 30, 1 / 10, 10, 3, false⟩

/-! ## Helper lemmas -/

theorem insertSorted_ne_nil (x : ℚ) (l : List ℚ) : insertSorted x l ≠ [] := by
  cases l with
  | nil => simp [insertSorted]
  | cons y ys =>
    unfold insertSorted
    split <;> simp

theorem sortRtts_eq_nil_iff (l : List ℚ) : sortRtts l = [] ↔ l = [] := by
  cases l with
  | nil => simp [sortRtts]
  | cons x xs =>
    simp only [sortRtts, List.foldr_cons]
    exact ⟨fun h => absurd h (insertSorted_ne_nil _ _), fun h => by simp at h⟩

theorem percentile_nil (p : ℚ) : percentile [] p = none := rfl

theorem percentile_cons (a : ℚ) (l : List ℚ) (p : ℚ) :
    ∃ v, percentile (a :: l) p = some v := ⟨_, rfl⟩

/-- Characterisation of membership of a throughput line in the report:
a `Line.speed` line is printed exactly when the speed argument is present
and nonzero, and its label is determined by the direction flag. -/
theorem speed_line_mem (args : Args) (result : PingResult) (speed : Option ℚ)
    (d : String) (s : ℚ) :
    Line.speed d s ∈ (print_result args result speed).1 ↔
      speed = some s ∧ s ≠ 0 ∧
        d = (if args.direction = "up" then "Upload" else "Download") := by
  unfold print_result
  rcases h : sortRtts result.rtts with _ | ⟨a, l⟩
  · rcases speed with _ | s₀
    · simp [percentile_nil]
    · by_cases hs : s₀ = 0 <;> simp_all [percentile_nil] <;> aesop
  · obtain ⟨v10, h10⟩ := percentile_cons a l 10
    obtain ⟨v50, h50⟩ := percentile_cons a l 50
    obtain ⟨v90, h90⟩ := percentile_cons a l 90
    rcases speed with _ | s₀
    · simp [h10, h50, h90]
    · by_cases hs : s₀ = 0 <;> simp_all [h10, h50, h90] <;> aesop

theorem firstNone_eq_none_iff (l : List (Option ℚ)) :
    firstNone l = none ↔ ∀ x ∈ l, x ≠ none := by
  induction l with
  | nil => simp [firstNone]
  | cons x xs ih =>
    cases x with
    | none => simp [firstNone]
    | some v => simp [firstNone, ih]

theorem firstNone_map_some (f : ℕ → ℚ) (l : List ℕ) :
    firstNone (l.map fun i => some (f i)) = none := by
  induction l with
  | nil => rfl
  | cons x xs ih => simp [firstNone, ih]

/-- With a zero probe interval, line 46 of the script divides by zero:
the run aborts before anything is launched or printed. -/
theorem mainRun_zero_interval (args : Args) (env : Env) (h : args.interval = 0) :
    mainRun args env =
      ⟨[], [], none, [], some RunError.zeroDivisionError⟩ := by
  simp [mainRun, h]

/-- Idle mode: one ping call, no netperf subprocesses, report printed with
no speed argument. -/
theorem mainRun_idle (args : Args) (env : Env) (h1 : args.idle = true)
    (h2 : args.interval ≠ 0) :
    mainRun args env =
      ⟨[], [⟨args.ping, sampleCount (args.length : ℚ) args.interval, args.interval, false⟩],
       none, (print_result args env.pingResult none).1,
       (print_result args env.pingResult none).2⟩ := by
  simp [mainRun, h1, h2]

/-- Load mode with all sessions parsing: the full shape of the trace. -/
theorem mainRun_load (args : Args) (env : Env) (v : ℕ → ℚ)
    (h1 : args.idle = false) (h2 : args.interval ≠ 0)
    (hv : ∀ i < args.num.toNat, parsePyFloat (env.sessionStdout i) = some (v i)) :
    mainRun args env =
      ⟨(List.range args.num.toNat).map fun _ =>
        ⟨args.proto, args.host, netperfDirection args,
         congruentDuration (args.length : ℚ) args.interval + args.warmup + 2⟩,
       [⟨args.ping, sampleCount (args.length : ℚ) args.interval, args.interval, false⟩],
       some (((List.range args.num.toNat).map v).sum),
       (print_result args env.pingResult (some (((List.range args.num.toNat).map v).sum))).1,
       (print_result args env.pingResult (some (((List.range args.num.toNat).map v).sum))).2⟩ := by
  have hres : ((List.range args.num.toNat).map fun i =>
      get_netperf (env.sessionStdout i) (env.sessionExit i)) =
      (List.range args.num.toNat).map fun i => some (v i) := by
    refine List.map_congr_left fun i hi => ?_
    exact hv i (List.mem_range.mp hi)
  have hsum : (((List.range args.num.toNat).map fun i => some (v i)).filterMap id) =
      (List.range args.num.toNat).map v := by
    rw [List.filterMap_map]
    exact List.filterMap_eq_map v ▸ rfl
  unfold mainRun
  rw [if_neg h2]
  simp only [h1, Bool.false_eq_true, if_false, hres, firstNone_map_some, hsum,
    netperfDirection]

/-- Load mode with a failing session: the run aborts with a `ValueError`
and prints no report lines; the netperf subprocesses and the ping call have
already been launched. -/
theorem mainRun_load_fail (args : Args) (env : Env)
    (h1 : args.idle = false) (h2 : args.interval ≠ 0)
    (hfail : ∃ i < args.num.toNat, parsePyFloat (env.sessionStdout i) = none) :
    ∃ j, mainRun args env =
      ⟨(List.range args.num.toNat).map fun _ =>
        ⟨args.proto, args.host, netperfDirection args,
         congruentDuration (args.length : ℚ) args.interval + args.warmup + 2⟩,
       [⟨args.ping, sampleCount (args.length : ℚ) args.interval, args.interval, false⟩],
       none, [], some (RunError.valueError j)⟩ := by
  obtain ⟨i, hi, hnone⟩ := hfail
  have hmem : (none : Option ℚ) ∈ (List.range args.num.toNat).map fun i =>
      get_netperf (env.sessionStdout i) (env.sessionExit i) := by
    refine List.mem_map.mpr ⟨i, List.mem_range.mpr hi, ?_⟩
    exact hnone
  have : firstNone ((List.range args.num.toNat).map fun i =>
      get_netperf (env.sessionStdout i) (env.sessionExit i)) ≠ none := by
    intro hcontra
    exact ((firstNone_eq_none_iff _).mp hcontra) none hmem rfl
  obtain ⟨j, hj⟩ := Option.ne_none_iff_exists'.mp this
  refine ⟨j, ?_⟩
  unfold mainRun
  rw [if_neg h2]
  simp only [h1, Bool.false_eq_true, if_false, hj, netperfDirection]

/-! ## Claims -/

/-- C1 (counterexample): at `duration = 10`, `interval = 0.3` — both
positive — the congruent duration is 11, which exceeds `duration` by a full
second, more than one `interval` (0.3): the claim's "within one interval"
bound is false. -/
theorem c1_within_one_interval_counterexample :
    (0 : ℚ) < 10 ∧ (0 : ℚ) < 3 / 10 ∧
      congruentDuration 10 (3 / 10) = 11 ∧
      ¬ ((congruentDuration 10 (3 / 10) : ℚ) ≤ 10 + 3 / 10) := by
  have h1 : sampleCount 10 (3 / 10) = 34 := by
    rw [sampleCount, Int.ceil_eq_iff] <;> norm_num
  have h2 : congruentDuration 10 (3 / 10) = 11 := by
    rw [congruentDuration, h1, Int.ceil_eq_iff] <;> norm_num
  refine ⟨by norm_num, by norm_num, h2, ?_⟩
  rw [h2]
  norm_num

/-- C1 (amended): for every positive duration and interval, the derived
`congruentDuration = ceil(ceil(duration/interval) * interval)` is at least
`duration`, and is within one `interval` plus one second of `duration` (the
outer integer ceiling can add up to one extra second beyond the one-interval
bound). -/
theorem c1_congruent_duration_bounds (d i : ℚ) (hd : 0 < d) (hi : 0 < i) :
    d ≤ (congruentDuration d i : ℚ) ∧ (congruentDuration d i : ℚ) < d + i + 1 := by
  have hne : i ≠ 0 := ne_of_gt hi
  have h1 : d / i ≤ (⌈d / i⌉ : ℚ) := Int.le_ceil _
  have h2 : (⌈d / i⌉ : ℚ) < d / i + 1 := Int.ceil_lt_add_one _
  simp only [congruentDuration, sampleCount]
  constructor
  · have hstep : d ≤ (⌈d / i⌉ : ℚ) * i := by
      calc d = d / i * i := (div_mul_cancel₀ d hne).symm
        _ ≤ (⌈d / i⌉ : ℚ) * i := mul_le_mul_of_nonneg_right h1 hi.le
    exact hstep.trans (Int.le_ceil _)
  · have h3 : (⌈d / i⌉ : ℚ) * i < d + i := by
      have hmul := mul_lt_mul_of_pos_right h2 hi
      rwa [add_mul, div_mul_cancel₀ d hne, one_mul] at hmul
    have h4 : (⌈(⌈d / i⌉ : ℚ) * i⌉ : ℚ) < (⌈d / i⌉ : ℚ) * i + 1 :=
      Int.ceil_lt_add_one _
    linarith

/-- C1 (witness): the bounds instantiated at `duration = 10`,
`interval = 0.3`. -/
theorem c1_congruent_duration_bounds_witness :
    (10 : ℚ) ≤ (congruentDuration 10 (3 / 10) : ℚ) ∧
      (congruentDuration 10 (3 / 10) : ℚ) < 10 + 3 / 10 + 1 :=
  c1_congruent_duration_bounds 10 (3 / 10) (by norm_num) (by norm_num)

/-- C2: at `interval = 0.1` and `length = 30`, the derived timing of
lines 46-47 yields 300 samples and a congruent duration of 30 seconds. -/
theorem c2_default_scenario :
    sampleCount 30 (1 / 10) = 300 ∧ congruentDuration 30 (1 / 10) = 30 := by
  have h1 : sampleCount 30 (1 / 10) = 300 := by
    rw [sampleCount, Int.ceil_eq_iff] <;> norm_num
  refine ⟨h1, ?_⟩
  rw [congruentDuration, h1, Int.ceil_eq_iff] <;> norm_num

/-- The latency header line is always printed, whatever else happens. -/
theorem latencyHeader_mem (args : Args) (result : PingResult) (speed : Option ℚ) :
    Line.latencyHeader result.packets_sent (result.packet_loss * 100) ∈
      (print_result args result speed).1 := by
  unfold print_result
  rcases h : sortRtts result.rtts with _ | ⟨a, l⟩
  · rcases speed with _ | s₀ <;> simp [percentile_nil]
  · obtain ⟨v10, h10⟩ := percentile_cons a l 10
    obtain ⟨v50, h50⟩ := percentile_cons a l 50
    obtain ⟨v90, h90⟩ := percentile_cons a l 90
    rcases speed with _ | s₀ <;> simp [h10, h50, h90]

/-- The report always has at least the header lines. -/
theorem print_result_lines_ne_nil (args : Args) (result : PingResult)
    (speed : Option ℚ) : (print_result args result speed).1 ≠ [] := by
  intro hnil
  have := latencyHeader_mem args result speed
  rw [hnil] at this
  exact absurd this (List.not_mem_nil _)

/-- With a nonempty sample list every percentile call succeeds, so the
report completes without an exception. -/
theorem print_result_no_error (args : Args) (result : PingResult)
    (speed : Option ℚ) (h : result.rtts ≠ []) :
    (print_result args result speed).2 = none := by
  unfold print_result
  rcases hs : sortRtts result.rtts with _ | ⟨a, l⟩
  · exact absurd ((sortRtts_eq_nil_iff _).mp hs) h
  · obtain ⟨v10, h10⟩ := percentile_cons a l 10
    obtain ⟨v50, h50⟩ := percentile_cons a l 50
    obtain ⟨v90, h90⟩ := percentile_cons a l 90
    simp [h10, h50, h90]

/-- With an empty sample list the first percentile call raises, after the
header lines (and the speed line, when truthy) have been printed; no
percentile line is ever printed. -/
theorem print_result_empty_shape (args : Args) (result : PingResult)
    (speed : Option ℚ) (h : result.rtts = []) :
    (print_result args result speed).2 = some RunError.indexError ∧
      ∀ v, Line.pct10 v ∉ (print_result args result speed).1 := by
  have hs : sortRtts result.rtts = [] := (sortRtts_eq_nil_iff _).mpr h
  unfold print_result
  rw [hs]
  rcases speed with _ | s₀
  · simp [percentile_nil]
  · by_cases hz : s₀ = 0 <;> simp [percentile_nil, hz]

/-- Load mode always launches `args.num` netperf subprocesses with
identical command lines, whether or not the sessions later parse. -/
theorem mainRun_load_netperfs (args : Args) (env : Env)
    (h1 : args.idle = false) (h2 : args.interval ≠ 0) :
    (mainRun args env).netperfs =
      (List.range args.num.toNat).map fun _ =>
        ⟨args.proto, args.host, netperfDirection args,
         congruentDuration (args.length : ℚ) args.interval + args.warmup + 2⟩ := by
  unfold mainRun
  rw [if_neg h2]
  simp only [h1, Bool.false_eq_true, if_false, netperfDirection]
  split <;> rfl

/-- If no session fails to parse, each session's parsed value is the value
its standard output parses to. -/
theorem all_parse_some (env : Env) (n : ℕ)
    (h : ¬ ∃ i < n, parsePyFloat (env.sessionStdout i) = none) :
    ∀ i < n, parsePyFloat (env.sessionStdout i) =
      some ((parsePyFloat (env.sessionStdout i)).getD 0) := by
  intro i hi
  rcases hp : parsePyFloat (env.sessionStdout i) with _ | y
  · exact absurd ⟨i, hi, hp⟩ h
  · simp

/-- In load mode, the printed lines are either nothing (a session failed)
or the report for some aggregate speed. -/
theorem mainRun_load_lines (args : Args) (env : Env)
    (h1 : args.idle = false) (h2 : args.interval ≠ 0) :
    (mainRun args env).lines = [] ∨
      ∃ s, (mainRun args env).lines =
        (print_result args env.pingResult (some s)).1 := by
  by_cases hfail : ∃ i < args.num.toNat,
      parsePyFloat (env.sessionStdout i) = none
  · obtain ⟨j, hj⟩ := mainRun_load_fail args env h1 h2 hfail
    left
    rw [hj]
  · right
    refine ⟨((List.range args.num.toNat).map fun i =>
      (parsePyFloat (env.sessionStdout i)).getD 0).sum, ?_⟩
    rw [mainRun_load args env _ h1 h2 (all_parse_some env _ hfail)]

/-! ## C3 -/

/-- C3 (counterexample): a negative interval is not rejected — the run
launches its netperf subprocess and completes without error — and neither
is a session count of zero, which also completes without error. No
`ConfigurationError` exists in the program. -/
theorem c3_counterexample :
    ((mainRun argsNegInterval envFix).error = none ∧
      (mainRun argsNegInterval envFix).netperfs ≠ []) ∧
    (mainRun argsZeroSessions envFix).error = none := by
  have hv1 : ∀ i < argsNegInterval.num.toNat,
      parsePyFloat (envFix.sessionStdout i) = some 5 := by
    intro i _
    simp [envFix, parsePyFloat, pyStrip, parseDecimal, digitsVal]
  have h1 := mainRun_load argsNegInterval envFix (fun _ => 5) rfl
    (by norm_num [argsNegInterval]) hv1
  have hv0 : ∀ i < argsZeroSessions.num.toNat,
      parsePyFloat (envFix.sessionStdout i) = some 5 := by
    intro i _
    simp [envFix, parsePyFloat, pyStrip, parseDecimal, digitsVal]
  have h0 := mainRun_load argsZeroSessions envFix (fun _ => 5) rfl
    (by norm_num [argsZeroSessions]) hv0
  refine ⟨⟨?_, ?_⟩, ?_⟩
  · rw [h1]
    exact print_result_no_error _ _ _ (by simp [envFix, pingFix])
  · rw [h1]
    simp [argsNegInterval]
  · rw [h0]
    exact print_result_no_error _ _ _ (by simp [envFix, pingFix])

/-- C3 (amended): the orchestrator performs no parameter validation. A
zero interval aborts the run (with a `ZeroDivisionError`, not a
configuration check) before any subprocess or probe is launched; a nonzero
(even negative) interval proceeds to launch all `num` sessions; a session
count below 1 is not rejected either — zero sessions are launched and the
run reports an aggregate throughput of zero. -/
theorem c3_no_validation (args : Args) (env : Env) :
    (args.interval = 0 →
      mainRun args env = ⟨[], [], none, [], some RunError.zeroDivisionError⟩) ∧
    (args.interval ≠ 0 → args.idle = false →
      (mainRun args env).netperfs.length = args.num.toNat) ∧
    (args.interval ≠ 0 → args.idle = false → args.num ≤ 0 →
      (mainRun args env).speed = some 0 ∧
        (mainRun args env).error = (print_result args env.pingResult (some 0)).2) := by
  refine ⟨fun h0 => mainRun_zero_interval args env h0, fun h2 h1 => ?_, fun h2 h1 hn => ?_⟩
  · rw [mainRun_load_netperfs args env h1 h2]
    simp
  · have hzero : args.num.toNat = 0 := Int.toNat_of_nonpos hn
    have hv : ∀ i < args.num.toNat,
        parsePyFloat (env.sessionStdout i) = some 0 := by
      intro i hi
      rw [hzero] at hi
      exact absurd hi (Nat.not_lt_zero i)
    have h := mainRun_load args env (fun _ => 0) h1 h2 hv
    rw [h, hzero]
    simp

/-- C3 (witness): with a zero interval the run aborts before launching
anything. -/
theorem c3_no_validation_witness :
    mainRun argsZeroInterval envFix =
      ⟨[], [], none, [], some RunError.zeroDivisionError⟩ :=
  (c3_no_validation argsZeroInterval envFix).1 rfl

/-! ## C4 -/

/-- C4 (counterexample): every session subprocess exits with status 1, yet
the run completes without error and prints the statistics report — the
exit status is never examined. -/
theorem c4_counterexample :
    (mainRun argsLoadFix envExitOne).error = none ∧
      (mainRun argsLoadFix envExitOne).lines ≠ [] := by
  have hv : ∀ i < argsLoadFix.num.toNat,
      parsePyFloat (envExitOne.sessionStdout i) = some 10 := by
    intro i _
    simp [envExitOne, parsePyFloat, pyStrip, parseDecimal, digitsVal]
  have h := mainRun_load argsLoadFix envExitOne (fun _ => 10) rfl
    (by norm_num [argsLoadFix]) hv
  rw [h]
  exact ⟨print_result_no_error _ _ _ (by simp [envExitOne, pingFix]),
    print_result_lines_ne_nil _ _ _⟩

/-- C4 (amended): a session whose standard output does not parse as a
single trimmed float is a fatal failure — the run terminates with the
`ValueError` and no statistics report is printed. The process exit status,
however, is never examined: the whole run is unchanged under any
reassignment of session exit statuses. -/
theorem c4_session_failure (args : Args) (env : Env)
    (h1 : args.idle = false) (h2 : args.interval ≠ 0) :
    ((∃ i < args.num.toNat, parsePyFloat (env.sessionStdout i) = none) →
      (∃ j, (mainRun args env).error = some (RunError.valueError j)) ∧
        (mainRun args env).lines = []) ∧
    (∀ ec, mainRun args { env with sessionExit := ec } = mainRun args env) := by
  refine ⟨fun hfail => ?_, fun ec => rfl⟩
  obtain ⟨j, hj⟩ := mainRun_load_fail args env h1 h2 hfail
  rw [hj]
  exact ⟨⟨j, rfl⟩, rfl⟩

/-- C4 (witness): a run whose second session prints `abc` aborts with a
`ValueError` and prints nothing. -/
theorem c4_session_failure_witness :
    (mainRun argsLoadFix envBadOutput).lines = [] ∧
      (mainRun argsLoadFix envBadOutput).error.isSome = true := by
  obtain ⟨⟨j, hj⟩, hl⟩ :=
    (c4_session_failure argsLoadFix envBadOutput rfl (by norm_num [argsLoadFix])).1
      ⟨1, by norm_num [argsLoadFix],
        by simp [envBadOutput, parsePyFloat, pyStrip, parseDecimal, digitsVal]⟩
  refine ⟨hl, ?_⟩
  rw [hj]
  rfl

/-! ## C5 -/

/-- C5: in load mode, every one of the `num` launched netperf sessions is
configured to run for exactly `congruentDuration + warmup + 2` seconds
(line 60: `run_netperf(log, args.proto, args.host, direction,
length + args.warmup + 2)`). -/
theorem c5_session_duration (args : Args) (env : Env)
    (h1 : args.idle = false) (h2 : args.interval ≠ 0) :
    (mainRun args env).netperfs =
      List.replicate args.num.toNat
        ⟨args.proto, args.host, netperfDirection args,
         congruentDuration (args.length : ℚ) args.interval + args.warmup + 2⟩ := by
  rw [mainRun_load_netperfs args env h1 h2]
  simp

/-- C5 (witness): with the defaults `length = 30`, `interval = 0.1`,
`warmup = 10` and three sessions, each session runs for
`30 + 10 + 2 = 42` seconds. -/
theorem c5_session_duration_witness :
    (mainRun argsLoadFix envFix).netperfs =
      List.replicate 3 ⟨4, "h", "TCP_STREAM", 42⟩ := by
  have h := c5_session_duration argsLoadFix envFix rfl (by norm_num [argsLoadFix])
  have hs : sampleCount (30 : ℚ) (1 / 10) = 300 := by
    rw [sampleCount, Int.ceil_eq_iff] <;> norm_num
  have hc : congruentDuration (30 : ℚ) (1 / 10) = 30 := by
    rw [congruentDuration, hs, Int.ceil_eq_iff] <;> norm_num
  rw [h]
  norm_num [argsLoadFix, netperfDirection, hc]
  rfl

/-! ## C6 -/

/-- C6: in idle mode the orchestrator issues exactly one unprivileged ping
call for `sampleCount` samples at `interval` spacing against the ping
host, launches no netperf sessions, and the printed report contains no
throughput line. -/
theorem c6_idle_probe_only (args : Args) (env : Env)
    (h1 : args.idle = true) (h2 : args.interval ≠ 0) :
    (mainRun args env).pingCalls =
      [⟨args.ping, sampleCount (args.length : ℚ) args.interval,
        args.interval, false⟩] ∧
    (mainRun args env).netperfs = [] ∧
    ∀ d s, Line.speed d s ∉ (mainRun args env).lines := by
  rw [mainRun_idle args env h1 h2]
  refine ⟨rfl, rfl, fun d s hmem => ?_⟩
  obtain ⟨hsp, -, -⟩ := (speed_line_mem args env.pingResult none d s).mp hmem
  exact Option.noConfusion hsp

/-- C6 (witness): idle mode with `ping = 1.1.1.1`, `length = 5`,
`interval = 1` requests exactly 5 probe samples and prints no throughput
line. -/
theorem c6_idle_probe_only_witness :
    (mainRun argsIdleFix envFix).pingCalls = [⟨"1.1.1.1", 5, 1, false⟩] ∧
    (mainRun argsIdleFix envFix).netperfs = [] ∧
    Line.speed "Upload" 50 ∉ (mainRun argsIdleFix envFix).lines := by
  obtain ⟨hp, hn, hs⟩ :=
    c6_idle_probe_only argsIdleFix envFix rfl (by norm_num [argsIdleFix])
  have hc : sampleCount (5 : ℚ) 1 = 5 := by
    rw [sampleCount, Int.ceil_eq_iff] <;> norm_num
  refine ⟨?_, hn, hs "Upload" 50⟩
  rw [hp]
  norm_num [argsIdleFix, hc]

/-! ## C7 -/

/-- C7: the aggregate throughput passed to the report is the arithmetic
sum of all individual session results (line 71: `speed = sum(speeds)`). -/
theorem c7_aggregate_sum (args : Args) (env : Env) (v : ℕ → ℚ)
    (h1 : args.idle = false) (h2 : args.interval ≠ 0)
    (hv : ∀ i < args.num.toNat, parsePyFloat (env.sessionStdout i) = some (v i)) :
    (mainRun args env).speed =
      some (((List.range args.num.toNat).map v).sum) := by
  rw [mainRun_load args env v h1 h2 hv]

/-- C7 (witness): the synthetic session results `[10.0, 12.5, 9.8]` sum to
exactly 32.3 Mbps. -/
theorem c7_aggregate_sum_witness :
    (mainRun argsLoadFix envSynth).speed = some (323 / 10) := by
  have hv : ∀ i < argsLoadFix.num.toNat,
      parsePyFloat (envSynth.sessionStdout i) =
        some (if i = 0 then 10 else if i = 1 then 25 / 2 else 49 / 5) := by
    intro i hi
    have hi3 : i < 3 := by simpa [argsLoadFix] using hi
    interval_cases i <;>
      simp [envSynth, parsePyFloat, pyStrip, parseDecimal, digitsVal] <;>
      norm_num
  have h := c7_aggregate_sum argsLoadFix envSynth _ rfl
    (by norm_num [argsLoadFix]) hv
  rw [h, show argsLoadFix.num.toNat = 3 from rfl,
    show List.range 3 = [0, 1, 2] from rfl]
  norm_num

/-! ## C8 -/

/-- The Min line is always printed (line 35 precedes the first percentile
call at line 36). -/
theorem minRtt_mem (args : Args) (result : PingResult) (speed : Option ℚ) :
    Line.minRtt result.min_rtt ∈ (print_result args result speed).1 := by
  unfold print_result
  rcases h : sortRtts result.rtts with _ | ⟨a, l⟩
  · rcases speed with _ | s₀ <;> simp [percentile_nil]
  · obtain ⟨v10, h10⟩ := percentile_cons a l 10
    obtain ⟨v50, h50⟩ := percentile_cons a l 50
    obtain ⟨v90, h90⟩ := percentile_cons a l 90
    rcases speed with _ | s₀ <;> simp [h10, h50, h90]

/-- C8 (counterexample): on an empty sample set the statistics printing
does fail, but only after report lines have already been printed — the
claim that no partial statistics report is printed is false. -/
theorem c8_counterexample :
    (print_result argsLoadFix emptyPing none).2 = some RunError.indexError ∧
      (print_result argsLoadFix emptyPing none).1 ≠ [] :=
  ⟨(print_result_empty_shape argsLoadFix emptyPing none (by simp [emptyPing])).1,
   print_result_lines_ne_nil _ _ _⟩

/-- C8 (amended): an empty latency-sample set makes the statistics
printing fail (the first `numpy.percentile` call raises `IndexError`), but
the latency header and Min lines have already been printed before the
failure; no percentile line is printed. -/
theorem c8_empty_samples (args : Args) (result : PingResult) (speed : Option ℚ)
    (h : result.rtts = []) :
    (print_result args result speed).2 = some RunError.indexError ∧
      Line.latencyHeader result.packets_sent (result.packet_loss * 100) ∈
        (print_result args result speed).1 ∧
      Line.minRtt result.min_rtt ∈ (print_result args result speed).1 ∧
      ∀ v, Line.pct10 v ∉ (print_result args result speed).1 := by
  obtain ⟨herr, hnp⟩ := print_result_empty_shape args result speed h
  exact ⟨herr, latencyHeader_mem args result speed, minRtt_mem args result speed, hnp⟩

/-- C8 (witness): the empty-sample failure at a concrete input, with the
header and Min lines already printed. -/
theorem c8_empty_samples_witness :
    (print_result argsLoadFix emptyPing (some 5)).2 = some RunError.indexError ∧
      Line.latencyHeader 300 100 ∈ (print_result argsLoadFix emptyPing (some 5)).1 ∧
      Line.minRtt 0 ∈ (print_result argsLoadFix emptyPing (some 5)).1 ∧
      Line.pct10 21 ∉ (print_result argsLoadFix emptyPing (some 5)).1 := by
  obtain ⟨h1, h2, h3, h4⟩ :=
    c8_empty_samples argsLoadFix emptyPing (some 5) (by simp [emptyPing])
  refine ⟨h1, ?_, ?_, h4 21⟩
  · simpa [emptyPing] using h2
  · simpa [emptyPing] using h3

/-! ## C9 -/

/-- C9: the direction/Mbps line is printed iff the speed argument is
truthy (`if speed:` at line 31) — present and nonzero; consequently a
load-mode run whose summed throughput is 0.0 omits the throughput line,
exactly as an idle-mode run does. -/
theorem c9_speed_truthiness (args : Args) (result : PingResult)
    (speed : Option ℚ) (env : Env) :
    ((∃ d s, Line.speed d s ∈ (print_result args result speed).1) ↔
      ∃ s, speed = some s ∧ s ≠ 0) ∧
    (args.idle = false → args.interval ≠ 0 →
      (∀ i < args.num.toNat, parsePyFloat (env.sessionStdout i) = some 0) →
      ∀ d s, Line.speed d s ∉ (mainRun args env).lines) := by
  constructor
  · constructor
    · rintro ⟨d, s, hmem⟩
      obtain ⟨hsp, hs0, -⟩ := (speed_line_mem args result speed d s).mp hmem
      exact ⟨s, hsp, hs0⟩
    · rintro ⟨s, hsp, hs0⟩
      exact ⟨_, s, (speed_line_mem args result speed _ s).mpr ⟨hsp, hs0, rfl⟩⟩
  · intro h1 h2 hv d s hmem
    have h := mainRun_load args env (fun _ => 0) h1 h2 hv
    rw [h] at hmem
    have hsum : (((List.range args.num.toNat).map fun _ => (0 : ℚ)).sum) = 0 := by
      simp
    rw [hsum] at hmem
    obtain ⟨hsp, hs0, -⟩ := (speed_line_mem args env.pingResult (some 0) d s).mp hmem
    exact hs0 (Option.some.inj hsp).symm

/-- C9 (witness): three sessions each reporting `0.0` sum to zero and the
report omits the throughput line. -/
theorem c9_speed_truthiness_witness :
    Line.speed "Upload" 5 ∉ (mainRun argsLoadFix envZeroSpeed).lines := by
  refine (c9_speed_truthiness argsLoadFix pingFix none envZeroSpeed).2 rfl
    (by norm_num [argsLoadFix]) ?_ "Upload" 5
  intro i hi
  simp [envZeroSpeed, parsePyFloat, pyStrip, parseDecimal, digitsVal]

/-! ## C10 -/

/-- Two direction flags other than `up` give identical runs: the flag is
only ever compared against the exact string `up`. -/
theorem mainRun_direction_congr (args : Args) (env : Env) (d1 d2 : String)
    (h1 : d1 ≠ "up") (h2 : d2 ≠ "up") :
    mainRun { args with direction := d1 } env =
      mainRun { args with direction := d2 } env := by
  have e1 : (d1 = "up") = False := eq_false h1
  have e2 : (d2 = "up") = False := eq_false h2
  simp only [mainRun, print_result, e1, e2, if_false]

/-- C10: any direction flag other than the exact string `up` selects the
download stream `TCP_MAERTS` and the `Download` label; no validation
rejects unknown values — the run is identical to a `down` run. -/
theorem c10_unknown_direction (args : Args) (env : Env)
    (h : args.direction ≠ "up") :
    (∀ cmd ∈ (mainRun args env).netperfs, cmd.direction = "TCP_MAERTS") ∧
    (∀ d s, Line.speed d s ∈ (mainRun args env).lines → d = "Download") ∧
    mainRun args env = mainRun { args with direction := "down" } env := by
  have hnd : netperfDirection args = "TCP_MAERTS" := by
    rw [netperfDirection, if_neg h]
  refine ⟨?_, ?_, ?_⟩
  · intro cmd hcmd
    by_cases h2 : args.interval = 0
    · rw [mainRun_zero_interval args env h2] at hcmd
      exact absurd hcmd (List.not_mem_nil _)
    · cases h1 : args.idle with
      | true =>
        rw [mainRun_idle args env h1 h2] at hcmd
        exact absurd hcmd (List.not_mem_nil _)
      | false =>
        rw [mainRun_load_netperfs args env h1 h2] at hcmd
        obtain ⟨i, -, rfl⟩ := List.mem_map.mp hcmd
        exact hnd
  · intro d s hmem
    by_cases h2 : args.interval = 0
    · rw [mainRun_zero_interval args env h2] at hmem
      exact absurd hmem (List.not_mem_nil _)
    · cases h1 : args.idle with
      | true =>
        rw [mainRun_idle args env h1 h2] at hmem
        obtain ⟨hsp, -, -⟩ := (speed_line_mem args env.pingResult none d s).mp hmem
        exact Option.noConfusion hsp
      | false =>
        rcases mainRun_load_lines args env h1 h2 with hnil | ⟨s0, hl⟩
        · rw [hnil] at hmem
          exact absurd hmem (List.not_mem_nil _)
        · rw [hl] at hmem
          obtain ⟨-, -, hd⟩ :=
            (speed_line_mem args env.pingResult (some s0) d s).mp hmem
          rw [hd, if_neg h]
  · calc mainRun args env
        = mainRun { args with direction := args.direction } env := rfl
      _ = mainRun { args with direction := "down" } env :=
        mainRun_direction_congr args env args.direction "down" h (by simp)

/-- C10 (witness): a run with direction `sideways` is identical to the
same run with direction `down`. -/
theorem c10_unknown_direction_witness :
    mainRun argsSideways envFix =
      mainRun { argsSideways with direction := "down" } envFix :=
  (c10_unknown_direction argsSideways envFix (by simp [argsSideways])).2.2
